import Mathlib

/-!
Verification of `src/lambda/download_and_predict/base.py` (the
`DownloadAndPredict` pipeline) against its natural-language specification.

The Python module is shallowly embedded: every function of the source is
translated into a Lean definition over explicit data.  Network effects are
made explicit by passing the HTTP responses (or a response function) as
arguments; Python exceptions are modelled by `Except PyErr`; Python `dict`,
list indexing and slicing are modelled by faithful helper functions.
JSON numbers are modelled by `ℚ` (they are exact decimals in the payloads
concerned); the geographic coordinates produced by `mercantile.bounds`
are real numbers because the latitude formula uses `arctan` and `sinh`.
-/

namespace DAP

/-- Python exceptions that the embedded code can raise.  `httpError` stands
for the `requests.HTTPError` raised by `raise_for_status`. -/
inductive PyErr where
  | typeError
  | keyError
  | indexError
  | attributeError
  | valueError
  | httpError
  deriving DecidableEq, Repr

/-- Raw bytes of an HTTP body (`r.content`), modelled as a list of byte
values. -/
abbrev Bytes : Type := List Nat

/-- A `mercantile.Tile` named tuple `(x, y, z)`.  The fields are Python
integers. -/
structure Tile where
  x : Int
  y : Int
  z : Int
  deriving DecidableEq, Repr

/-- Python list indexing `l[i]` for a non-negative index: `IndexError` when
the index is out of range. -/
def pyIndex {α : Type _} (l : List α) (i : Nat) : Except PyErr α :=
  if h : i < l.length then .ok (l.get ⟨i, h⟩) else .error .indexError

/-- Python dict assignment `d[k] = v` on an insertion-ordered dictionary:
an existing key keeps its position and gets the new value, a new key is
appended. -/
def dictInsert {β : Type _} (d : List (String × β)) (k : String) (v : β) :
    List (String × β) :=
  if d.any (fun p => p.1 = k) then
    d.map (fun p => if p.1 = k then (k, v) else p)
  else
    d ++ [(k, v)]

/-- Building a dict from an ordered list of key/value pairs by repeated
Python dict assignment. -/
def dictOfPairs {β : Type _} (ps : List (String × β)) : List (String × β) :=
  ps.foldl (fun d p => dictInsert d p.1 p.2) []

/-- Outcome of `requests` `raise_for_status`: an HTTP status below 400 does
not raise. -/
def statusOk (status : Nat) : Bool := status < 400

/-- Truncation of a JSON number to a Python `int` (`int(q)` truncates
toward zero). -/
def pyInt (q : ℚ) : Int := q.num.tdiv (q.den : Int)

/-- Python slice `l[:n]` for an `int` bound `n`: a non-negative bound keeps
the first `n` elements, a negative bound drops the last `|n|` elements. -/
def pySliceTo {α : Type _} (l : List α) (n : Int) : List α :=
  if 0 ≤ n then l.take n.toNat else l.take (l.length - min l.length n.natAbs)

/-- Python `zip(*pairs)` followed by unpacking into two variables: on an
empty iterable the unpacking raises `ValueError`, otherwise it yields the
two parallel lists. -/
def pyUnzip2 {α β : Type _} (l : List (α × β)) : Except PyErr (List α × List β) :=
  if l.isEmpty then .error .valueError else .ok l.unzip

/-! ### mercantile: quadkey, children, bounds -/

/-- One digit of `mercantile.quadkey`: for the mask `2 ^ k`, add 1 when the
bit is set in `x` and 2 when it is set in `y` (Python `&` on arbitrary
integers, i.e. two's complement). -/
def quadkeyDigit (x y : Int) (k : Nat) : Nat :=
  (if Int.land x ((1 : Int) <<< (k : Int)) ≠ 0 then 1 else 0) +
    (if Int.land y ((1 : Int) <<< (k : Int)) ≠ 0 then 2 else 0)

/-- `mercantile.quadkey(x, y, z)`: one digit per zoom level from `z` down
to 1, the digit for level `l` using the mask `1 << (l - 1)`. -/
def quadkey (x y : Int) (z : Int) : String :=
  String.join (((List.range z.toNat).reverse).map
    (fun k => toString (quadkeyDigit x y k)))

/-- `mercantile.children(tile, zoom = z + 1)`: the four children of a tile,
in mercantile's order upper-left, upper-right, lower-right, lower-left. -/
def children (t : Tile) : List Tile :=
  [⟨2 * t.x, 2 * t.y, t.z + 1⟩,
   ⟨2 * t.x + 1, 2 * t.y, t.z + 1⟩,
   ⟨2 * t.x + 1, 2 * t.y + 1, t.z + 1⟩,
   ⟨2 * t.x, 2 * t.y + 1, t.z + 1⟩]

/-- Python tuple comparison on `Tile` named tuples: lexicographic on
`(x, y, z)`. -/
def tileLt (a b : Tile) : Bool :=
  a.x < b.x ∨ (a.x = b.x ∧ (a.y < b.y ∨ (a.y = b.y ∧ a.z < b.z)))

/-- The non-strict tuple order on tiles. -/
def tileLe (a b : Tile) : Prop := tileLt b a = false

instance : DecidableRel tileLe := fun a b => by
  unfold tileLe
  infer_instance

/-- Python `list.sort()` on a list of `Tile` tuples: stable ascending sort
by the tuple order (rendered as an insertion sort, which agrees with
Python's stable sort on every input). -/
def tileSort (l : List Tile) : List Tile :=
  l.insertionSort tileLe

/-! ### SQS events and `get_tiles` -/

/-- The parsed JSON body of one SQS record: an insertion-ordered object
whose values are the integers the claims are about.  Python 3.7+ `dict`
(and hence `json.loads`) preserves the textual order of the keys, which is
what the order of this list records. -/
abbrev MsgBody : Type := List (String × Int)

/-- An SQS event, reduced to the list of parsed record bodies (the source
reads `record['body']` of each element of `event['Records']`, in order). -/
abbrev SQSEvent : Type := List MsgBody

/-- `Tile(*values)`: the mercantile named-tuple constructor applied to the
positional values of the parsed body.  Any arity other than three is a
`TypeError`. -/
def tileOfValues (vs : List Int) : Except PyErr Tile :=
  match vs with
  | [a, b, c] => .ok ⟨a, b, c⟩
  | _ => .error .typeError

/-- `DownloadAndPredict.get_tiles`: for each record in order, build
`Tile(*json.loads(record['body']).values())`.  The dict values are taken
in the textual order in which the keys appear in the body. -/
def get_tiles (event : SQSEvent) : Except PyErr (List Tile) :=
  event.mapM (fun body => tileOfValues (body.map Prod.snd))

/-! ### JSON values and `get_meta` -/

/-- A parsed JSON value, as `r.json()` returns it (JSON `null` becomes
Python `None`). -/
inductive Json where
  | null
  | num (q : ℚ)
  | str (s : String)
  | obj (fields : List (String × Json))
  | arr (elems : List Json)

/-- Whether a parsed JSON value is Python `None` (JSON `null`). -/
def Json.isNull : Json → Bool
  | .null => true
  | _ => false

/-- Python subscript `d[k]` on a parsed JSON value: `KeyError` when the key
is missing from an object, `TypeError` when the value is not an object. -/
def jsonGet (j : Json) (k : String) : Except PyErr Json :=
  match j with
  | .obj fs =>
      match fs.lookup k with
      | some v => .ok v
      | none => .error .keyError
  | _ => .error .typeError

/-- The two model kinds of the source `ModelType` enum. -/
inductive ModelType where
  | OBJECT_DETECT
  | CLASSIFICATION
  deriving DecidableEq, Repr

/-- Response of the model server's metadata endpoint: HTTP status and the
parsed JSON body. -/
structure MetaResp where
  status : Nat
  body : Json

/-- The chained subscripts
`meta["metadata"]["signature_def"]["signature_def"]["serving_default"]["inputs"]`
performed by `get_meta`. -/
def servingInputs (j : Json) : Except PyErr Json := do
  let a ← jsonGet j "metadata"
  let b ← jsonGet a "signature_def"
  let c ← jsonGet b "signature_def"
  let d ← jsonGet c "serving_default"
  jsonGet d "inputs"

/-- `DownloadAndPredict.get_meta`: `raise_for_status`, navigate to the
serving-default inputs map, then return `OBJECT_DETECT` iff
`inputs.get("inputs") is not None`.  A JSON `null` value parses to Python
`None`, so `dict.get` yields `None` both when the key is absent and when
its value is null.  Calling `.get` on a non-dict raises `AttributeError`. -/
def get_meta (resp : MetaResp) : Except PyErr ModelType :=
  if statusOk resp.status = false then .error .httpError else do
  let inputs ← servingInputs resp.body
  match inputs with
  | .obj fs =>
      if ((fs.lookup "inputs").getD Json.null).isNull = false then
        .ok ModelType.OBJECT_DETECT
      else
        .ok ModelType.CLASSIFICATION
  | _ => .error .attributeError

/-! ### Imagery fetching -/

/-- Response of an imagery `GET`: HTTP status and the raw body bytes
(`r.content`). -/
structure ImgResp where
  status : Nat
  content : Bytes
  deriving DecidableEq, Repr

/-- `self.imagery.format(x=tile.x, y=tile.y, z=tile.z)` for a template
whose replacement fields are exactly the simple placeholders for x, y
and z (written with escaped braces in this embedding). -/
def tileUrl (imagery : String) (t : Tile) : String :=
  ((imagery.replace "\x7bx\x7d" (toString t.x)).replace
      "\x7by\x7d" (toString t.y)).replace "\x7bz\x7d" (toString t.z)

/-- `DownloadAndPredict.get_images` (its body, as run when the function is
reached with both parameters bound): for each tile, `GET` the formatted
URL and yield `(tile, r.content)`.  The source performs no status check
and no emptiness check on the body. -/
def get_images (imagery : String) (http : String → ImgResp)
    (tiles : List Tile) : List (Tile × Bytes) :=
  tiles.map (fun tile => (tile, (http (tileUrl imagery tile)).content))

/-- A `rasterio` window `Window(col_off, row_off, width, height)`. -/
structure Window where
  col_off : Nat
  row_off : Nat
  width : Nat
  height : Nat
  deriving DecidableEq, Repr

/-- The numpy array `dataset.read(window=w)` for a dataset opened over the
fetched parent bytes.  Raster decoding happens inside the external
rasterio library, so the pixel content is kept symbolic: the value records
the source bytes and the window that was read.  No claim depends on the
pixel content, only on which window is paired with which child tile. -/
structure Raster where
  source : Bytes
  window : Window
  deriving DecidableEq, Repr

/-- The per-tile body of `get_supertiles_images`: sort the four children
of the tile (Python tuple order), then for `i` in `range(2)` and `j` in
`range(2)` yield `(tile_indices[i + j], dataset.read(window=Window(i*256,
j*256, 256, 256)))`. -/
def supertilePairs (t : Tile) (content : Bytes) :
    Except PyErr (List (Tile × Raster)) := do
  let tile_indices := tileSort (children t)
  (List.range 2).foldlM (fun acc i =>
    (List.range 2).foldlM (fun acc2 j => do
      let child ← pyIndex tile_indices (i + j)
      .ok (acc2 ++ [(child, Raster.mk content ⟨i * 256, j * 256, 256, 256⟩)]))
      acc) []

/-- `DownloadAndPredict.get_supertiles_images` (its body): for each tile,
fetch the parent raster and yield the four quadrant reads paired with
entries of the sorted child list. -/
def get_supertiles_images (imagery : String) (http : String → ImgResp)
    (tiles : List Tile) : Except PyErr (List (Tile × Raster)) :=
  tiles.foldlM (fun acc tile => do
    let r := http (tileUrl imagery tile)
    let ps ← supertilePairs tile r.content
    .ok (acc ++ ps)) []

/-! ### base64 and payload building -/

/-- The standard base64 alphabet used by `base64.b64encode`. -/
def base64Alphabet : List Char :=
  "ABCDEFGHIJKLMNOPQRSTUVWXYZabcdefghijklmnopqrstuvwxyz0123456789+/".toList

/-- Character for one six-bit group. -/
def b64Char (n : Nat) : Char := base64Alphabet.getD n 'A'

/-- base64 encoding of a byte list, three input bytes per four output
characters, padded with `=`. -/
def b64Groups : List Nat → List Char
  | [] => []
  | [a] => [b64Char (a / 4), b64Char (a % 4 * 16), '=', '=']
  | [a, b] => [b64Char (a / 4), b64Char (a % 4 * 16 + b / 16),
               b64Char (b % 16 * 4), '=']
  | a :: b :: c :: rest =>
      [b64Char (a / 4), b64Char (a % 4 * 16 + b / 16),
       b64Char (b % 16 * 4 + c / 64), b64Char (c % 64)] ++ b64Groups rest

/-- `DownloadAndPredict.b64encode_image`:
`b64encode(image_binary).decode('utf-8')`. -/
def b64encode_image (image_binary : Bytes) : String :=
  String.mk (b64Groups image_binary)

/-- base64 of the buffer of a numpy window-read.  The buffer itself is
produced by the external rasterio/numpy libraries and is opaque to this
embedding; its encoding is modelled from the raster's symbolic source
bytes.  No claim depends on this value (the code path that would use it
fails earlier with `TypeError`). -/
def b64encode_raster (r : Raster) : String := b64encode_image r.source

/-- One model-server instance: the classification wrapper
`dict(image_bytes=dict(b64=s))` or the detection wrapper
`dict(inputs=dict(b64=s))`. -/
inductive ModelInstance where
  | image_bytes (b64 : String)
  | inputs (b64 : String)
  deriving DecidableEq, Repr

/-- The predict request body `{"instances": [...]}`. -/
structure Payload where
  instances : List ModelInstance
  deriving DecidableEq, Repr

/-- Python call semantics for a function declared with `params` required
positional parameters and no defaults, applied to `supplied` positional
arguments: argument binding raises `TypeError` unless the counts agree,
before the body runs.  Attribute access `self.f` on a `@staticmethod`
returns the plain function, so `self.f(tiles)` supplies exactly one
argument to it. -/
def bindArgs {α : Type _} (params supplied : Nat) (body : α) : Except PyErr α :=
  if supplied = params then .ok body else .error .typeError

/-- Parameter count of the source `get_images`, declared `@staticmethod`
with parameter list `(self, tiles)`. -/
def get_images_paramCount : Nat := 2

/-- Parameter count of the source `get_supertiles_images`, declared
`@staticmethod` with parameter list `(self, tiles)`. -/
def get_supertiles_images_paramCount : Nat := 2

/-- `DownloadAndPredict.get_prediction_payload`: call
`self.get_images(tiles)` (one argument supplied to a two-parameter
function), unpack `zip(*tiles_and_images)`, then wrap each encoded image
under the model-type-specific key. -/
def get_prediction_payload (imagery : String) (http : String → ImgResp)
    (tiles : List Tile) (model_type : ModelType) :
    Except PyErr (List Tile × Payload) := do
  let tiles_and_images ← bindArgs get_images_paramCount 1
    (get_images imagery http tiles)
  let (tile_indices, images) ← pyUnzip2 tiles_and_images
  let instances :=
    if model_type = ModelType.CLASSIFICATION then
      images.map (fun img => ModelInstance.image_bytes (b64encode_image img))
    else
      images.map (fun img => ModelInstance.inputs (b64encode_image img))
  .ok (tile_indices, ⟨instances⟩)

/-- `DownloadAndPredict.get_prediction_payload_supertiles`: same shape as
`get_prediction_payload` but over `self.get_supertiles_images(tiles)`. -/
def get_prediction_payload_supertiles (imagery : String)
    (http : String → ImgResp) (tiles : List Tile) (model_type : ModelType) :
    Except PyErr (List Tile × Payload) := do
  let gen ← bindArgs get_supertiles_images_paramCount 1
    (get_supertiles_images imagery http tiles)
  let tiles_and_images ← gen
  let (tile_indices, images) ← pyUnzip2 tiles_and_images
  let instances :=
    if model_type = ModelType.CLASSIFICATION then
      images.map (fun img => ModelInstance.image_bytes (b64encode_raster img))
    else
      images.map (fun img => ModelInstance.inputs (b64encode_raster img))
  .ok (tile_indices, ⟨instances⟩)

/-! ### Geographic transform (`mercantile.bounds`, affine, shapely) -/

/-- A polygon exterior ring: a closed list of `(lon, lat)` points. -/
abbrev Geom : Type := List (ℝ × ℝ)

/-- Longitude of the upper-left corner of tile column `x` at zoom `z`
(`mercantile`: `xtile / Z2 * 360.0 - 180.0` with `Z2 = 2 ** zoom`). -/
noncomputable def ulLon (x z : Int) : ℝ :=
  (x : ℝ) / (2 : ℝ) ^ z * 360 - 180

/-- Latitude of the upper-left corner of tile row `y` at zoom `z`
(`mercantile`: `degrees(atan(sinh(pi * (1 - 2 * ytile / Z2))))`). -/
noncomputable def ulLat (y z : Int) : ℝ :=
  Real.arctan (Real.sinh (Real.pi * (1 - 2 * (y : ℝ) / (2 : ℝ) ^ z)))
    * 180 / Real.pi

/-- The geographic bounds `(west, south, east, north)` of a tile. -/
structure GeoBounds where
  west : ℝ
  south : ℝ
  east : ℝ
  north : ℝ

/-- `mercantile.bounds(x, y, z)`: west/north from the tile's own
upper-left corner, east/south from the upper-left corner of `(x+1, y+1)`. -/
noncomputable def tileBounds (t : Tile) : GeoBounds :=
  ⟨ulLon t.x t.z, ulLat (t.y + 1) t.z, ulLon (t.x + 1) t.z, ulLat t.y t.z⟩

/-- `shapely.geometry.box(minx, miny, maxx, maxy)`: the exterior ring,
counter-clockwise from `(maxx, miny)`, closed. -/
def shapelyBox (minx miny maxx maxy : ℝ) : Geom :=
  [(maxx, miny), (maxx, maxy), (minx, maxy), (minx, miny), (maxx, miny)]

/-- `shapely.affinity.affine_transform(geom, [a, b, d, e, xoff, yoff])`:
map every point `(x, y)` to `(a*x + b*y + xoff, d*x + e*y + yoff)`. -/
noncomputable def affineTransformPts (a b d e xoff yoff : ℝ) (pts : Geom) :
    Geom :=
  pts.map (fun p => (a * p.1 + b * p.2 + xoff, d * p.1 + e * p.2 + yoff))

/-- The list `pred = [bbox[1], bbox[0], bbox[3], bbox[2]]` computed by
`tf_bbox_geo`: reorder a `[ymin, xmin, ymax, xmax]` box to
`[xmin, ymin, xmax, ymax]`. -/
def tfPred {α : Type _} (bbox : List α) : Except PyErr (List α) := do
  let b0 ← pyIndex bbox 0
  let b1 ← pyIndex bbox 1
  let b2 ← pyIndex bbox 2
  let b3 ← pyIndex bbox 3
  .ok [b1, b0, b3, b2]

/-- `DownloadAndPredict.tf_bbox_geo`: reorder the box, compute the tile's
bounds, build the affine
`Affine(width/256, 0, west, 0, -(height/256), north)` and apply it (as the
six-element list `[a.a, a.b, a.d, a.e, a.xoff, a.yoff]`) to
`geometry.box(*pred)`. -/
noncomputable def tf_bbox_geo (bbox : List ℝ) (tile : Tile) :
    Except PyErr Geom := do
  let pred ← tfPred bbox
  match pred with
  | [minx, miny, maxx, maxy] =>
      let b := tileBounds tile
      let width := b.east - b.west
      let height := b.north - b.south
      .ok (affineTransformPts (width / 256) 0 0 (0 - height / 256)
            b.west b.north (shapelyBox minx miny maxx maxy))
  | _ => .error .typeError

/-- `shapely` `.bounds` of a point list: `(minx, miny, maxx, maxy)`. -/
noncomputable def polyBounds (pts : Geom) : ℝ × ℝ × ℝ × ℝ :=
  match pts with
  | [] => (0, 0, 0, 0)
  | p :: rest =>
      (rest.foldl (fun m q => min m q.1) p.1,
       rest.foldl (fun m q => min m q.2) p.2,
       rest.foldl (fun m q => max m q.1) p.1,
       rest.foldl (fun m q => max m q.2) p.2)

/-! ### Prediction records and the two post-processors -/

/-- One output record.  The classification branch builds the dict
`{quadkey, predictions, prediction_id}`; the detection branch additionally
has the key `quadkey_geom`, modelled by the option field. -/
structure Record where
  quadkey : String
  quadkey_geom : Option Geom
  predictions : List (String × ℚ)
  prediction_id : String

/-- The returned document `{"predictionId": ..., "predictions": [...]}`. -/
structure Output where
  predictionId : String
  predictions : List Record

/-- Response of the classification predict call, modelled at the JSON
shape the code consumes: the HTTP status and `r.json()["predictions"]` as
a list of numeric vectors. -/
structure ClResp where
  status : Nat
  predictions : List (List ℚ)
  deriving DecidableEq, Repr

/-- The inner loop `for j in range(len(preds[i])):
pred_dict[inferences[j]] = preds[i][j]`, rendered as recursion over the
prediction vector carrying the running index `j`. -/
def clDictGo (inferences : List String) :
    List ℚ → Nat → List (String × ℚ) → Except PyErr (List (String × ℚ))
  | [], _, d => .ok d
  | v :: rest, j, d => do
      let k ← pyIndex inferences j
      clDictGo inferences rest (j + 1) (dictInsert d k v)

/-- The outer loop `for i in range(len(tiles))` of `cl_post_prediction`,
rendered as recursion over the tile list carrying the running index `i`:
build the dict for `preds[i]`, then append the record for `tiles[i]`. -/
def clGo (preds : List (List ℚ)) (inferences : List String)
    (prediction_id : String) :
    List Tile → Nat → List Record → Except PyErr (List Record)
  | [], _, acc => .ok acc
  | t :: rest, i, acc => do
      let vec ← pyIndex preds i
      let d ← clDictGo inferences vec 0 []
      clGo preds inferences prediction_id rest (i + 1)
        (acc ++ [⟨quadkey t.x t.y t.z, none, d, prediction_id⟩])

/-- Closed form of the records produced by the classification loop from
index `i` on, when every access stays in range: one record per tile, whose
dict is built by Python dict assignment from the label list zipped against
the tile's prediction vector. -/
def clRecordsFrom (preds : List (List ℚ)) (inferences : List String)
    (prediction_id : String) : List Tile → Nat → List Record
  | [], _ => []
  | t :: rest, i =>
      ⟨quadkey t.x t.y t.z, none,
       dictOfPairs (inferences.zip (preds.getD i [])), prediction_id⟩ ::
        clRecordsFrom preds inferences prediction_id rest (i + 1)

/-- `DownloadAndPredict.cl_post_prediction`: post the payload,
`raise_for_status`, read `r.json()["predictions"]`, then run the record
loop and return the document. -/
def cl_post_prediction (resp : ClResp) (tiles : List Tile)
    (prediction_id : String) (inferences : List String) :
    Except PyErr Output :=
  if statusOk resp.status = false then .error .httpError else do
  let recs ← clGo resp.predictions inferences prediction_id tiles 0 []
  .ok ⟨prediction_id, recs⟩

/-- One parsed entry of `r.json()["predictions"]` for the detection model,
at the shape the code consumes. -/
structure OdPred where
  num_detections : ℚ
  detection_scores : List ℚ
  detection_boxes : List (List ℚ)
  deriving DecidableEq, Repr

/-- Response of one per-tile detection predict call. -/
structure OdResp where
  status : Nat
  predictions : List OdPred
  deriving DecidableEq, Repr

/-- The per-box scaling `[c * 256 for c in bbox]` of
`od_post_prediction`. -/
def scale256 (bbox : List ℚ) : List ℚ := bbox.map (fun c => c * 256)

/-- One iteration of the box loop `for j in range(len(bboxes_256))` of
`od_post_prediction`: read the scaled box, transform it to a geographic
polygon and append one record; the score is re-read from the unsliced
`preds["detection_scores"][j]`. -/
noncomputable def odBoxStep (preds : OdPred) (tile : Tile)
    (prediction_id : String) (bboxes_256 : List (List ℚ))
    (acc : List Record) (j : Nat) : Except PyErr (List Record) := do
  let bb ← pyIndex bboxes_256 j
  let geo ← tf_bbox_geo (bb.map (fun c => (c : ℝ))) tile
  let score ← pyIndex preds.detection_scores j
  .ok (acc ++ [⟨quadkey tile.x tile.y tile.z, some geo,
                [("default", score)], prediction_id⟩])

/-- The per-tile body of the `od_post_prediction` loop, after the per-tile
predict call succeeded and `preds = r.json()["predictions"][0]` was read:
`continue` on `num_detections == 0.0`, otherwise slice to
`int(num_detections)`, scale the boxes by 256 and run the box loop. -/
noncomputable def odTileRecords (preds : OdPred) (tile : Tile)
    (prediction_id : String) : Except PyErr (List Record) :=
  if preds.num_detections = 0 then .ok [] else
  let scores := pySliceTo preds.detection_scores (pyInt preds.num_detections)
  let bboxes := pySliceTo preds.detection_boxes (pyInt preds.num_detections)
  let bboxes_256 := bboxes.map scale256
  let _ := scores
  (List.range bboxes_256.length).foldlM
    (odBoxStep preds tile prediction_id bboxes_256) []

/-- The loop `for i in range(len(tiles))` of `od_post_prediction`: post
`{"instances": [payload["instances"][i]]}`, `raise_for_status`, read
`r.json()["predictions"][0]`, then run the per-tile body and move to the
next tile. -/
noncomputable def odGo (serve : Nat → OdResp) (instances : List ModelInstance)
    (prediction_id : String) :
    List Tile → Nat → List Record → Except PyErr (List Record)
  | [], _, acc => .ok acc
  | t :: rest, i, acc => do
      let _inst ← pyIndex instances i
      let resp := serve i
      if statusOk resp.status = false then .error .httpError else do
      let preds ← pyIndex resp.predictions 0
      let recs ← odTileRecords preds t prediction_id
      odGo serve instances prediction_id rest (i + 1) (acc ++ recs)

/-- `DownloadAndPredict.od_post_prediction`: one predict call per tile
(the response to the `i`-th call is `serve i`), collecting the records
into the returned document. -/
noncomputable def od_post_prediction (serve : Nat → OdResp)
    (instances : List ModelInstance) (tiles : List Tile)
    (prediction_id : String) : Except PyErr Output := do
  let pred_list ← odGo serve instances prediction_id tiles 0 []
  .ok ⟨prediction_id, pred_list⟩

/-- Modelled from the spec: the child tile occupying the geometric
quadrant of the parent raster whose window has column offset `i * 256` and
row offset `j * 256` — column half `i` selects the child column
`2x + i`, row half `j` selects the child row `2y + j` (raster row 0 is the
tile's northern edge, matching the child with the smaller `y`). -/
def geoQuadrantChild (t : Tile) (i j : Int) : Tile :=
  ⟨2 * t.x + i, 2 * t.y + j, t.z + 1⟩

/-! ## Theorems -/

/-- C1: refuted by the code — in supertile mode the quadrant windows are
not paired with the children at their geometric positions.  At the parent
tile `(0, 0, 0)` the source pairs the window with pixel offset `(256, 0)`
(right column, top row) with child `(0, 1, 1)` instead of the child
`(1, 0, 1)` occupying that quadrant, the emitted child identifiers contain
`(0, 1, 1)` twice, and the child `(1, 1, 1)` is never emitted although it
is one of the four children. -/
theorem C1_quadrant_assignment_bug :
    supertilePairs ⟨0, 0, 0⟩ [] = .ok
      [(⟨0, 0, 1⟩, ⟨[], ⟨0, 0, 256, 256⟩⟩),
       (⟨0, 1, 1⟩, ⟨[], ⟨0, 256, 256, 256⟩⟩),
       (⟨0, 1, 1⟩, ⟨[], ⟨256, 0, 256, 256⟩⟩),
       (⟨1, 0, 1⟩, ⟨[], ⟨256, 256, 256, 256⟩⟩)] ∧
    geoQuadrantChild ⟨0, 0, 0⟩ 1 0 = ⟨1, 0, 1⟩ ∧
    (⟨0, 1, 1⟩ : Tile) ≠ ⟨1, 0, 1⟩ ∧
    ¬ List.Nodup [(⟨0, 0, 1⟩ : Tile), ⟨0, 1, 1⟩, ⟨0, 1, 1⟩, ⟨1, 0, 1⟩] ∧
    (⟨1, 1, 1⟩ : Tile) ∈ children ⟨0, 0, 0⟩ ∧
    (⟨1, 1, 1⟩ : Tile) ∉
      [(⟨0, 0, 1⟩ : Tile), ⟨0, 1, 1⟩, ⟨0, 1, 1⟩, ⟨1, 0, 1⟩] := by
  refine ⟨rfl, rfl, by decide, by decide, by decide, by decide⟩

/-- C2: both payload builders call the two-parameter `@staticmethod`
through the instance with a single argument, so argument binding raises
`TypeError` for every instance configuration, every tile list (the empty
list included) and every model type, independently of the imagery
endpoint's responses; no payload is ever returned. -/
theorem C2_payload_always_typeError (imagery : String)
    (http : String → ImgResp) (tiles : List Tile) (model_type : ModelType) :
    get_prediction_payload imagery http tiles model_type =
      .error .typeError ∧
    get_prediction_payload_supertiles imagery http tiles model_type =
      .error .typeError :=
  ⟨rfl, rfl⟩

/-- C3 counterexample: for a tile whose imagery fetch returns HTTP 404
with an empty body, `get_images` still produces the `(tile, bytes)` pair
and no error of any kind is raised, contrary to the claim that the fetch
fails and no pair is produced. -/
theorem C3_counterexample :
    get_images "u" (fun _ => ⟨404, []⟩) [⟨1, 2, 3⟩] = [(⟨1, 2, 3⟩, [])] ∧
    statusOk 404 = false ∧ ([] : Bytes).length = 0 :=
  ⟨rfl, rfl, rfl⟩

/-- C3 amended: `get_images` performs no status check and no emptiness
check — for every imagery template, every response function and every tile
list it returns exactly one `(tile, response content)` pair per tile, in
input order, whatever the status and body of each response. -/
theorem C3_amended (imagery : String) (http : String → ImgResp)
    (tiles : List Tile) :
    (get_images imagery http tiles).length = tiles.length ∧
    ∀ i : Nat, (get_images imagery http tiles).get? i =
      (tiles.get? i).map
        (fun t => (t, (http (tileUrl imagery t)).content)) := by
  constructor
  · simp [get_images]
  · intro i
    simp [get_images, List.get?_map]

/-- C5 counterexample: a message whose body lists the fields in the
textual order `y, x, z` yields the tile `(5, 4, 3)` instead of the tile
`(x, y, z) = (4, 5, 3)`, because `Tile(*json.loads(body).values())` binds
the dict values positionally. -/
theorem C5_counterexample :
    get_tiles [[("y", 5), ("x", 4), ("z", 3)]] = .ok [⟨5, 4, 3⟩] ∧
    (⟨5, 4, 3⟩ : Tile) ≠ ⟨4, 5, 3⟩ :=
  ⟨rfl, by decide⟩

/-- C5 amended: `get_tiles` preserves the batch length and order and
builds each tile from its message's values in their textual order, so the
i-th output is the tile `(x_i, y_i, z_i)` exactly when the three fields
appear in the textual order `x, y, z` in the i-th body. -/
theorem C5_amended (event : SQSEvent)
    (h : ∀ b ∈ event, ∃ xv yv zv : Int,
      b = [("x", xv), ("y", yv), ("z", zv)]) :
    get_tiles event = .ok (event.map (fun b =>
      ⟨(b.lookup "x").getD 0, (b.lookup "y").getD 0,
       (b.lookup "z").getD 0⟩)) := by
  induction event with
  | nil => rfl
  | cons b rest ih =>
      obtain ⟨xv, yv, zv, hb⟩ := h b (List.mem_cons_self b rest)
      have hrest := ih (fun b' hb' => h b' (List.mem_cons_of_mem b hb'))
      subst hb
      simp only [get_tiles, List.mapM_cons] at hrest ⊢
      rw [hrest]
      rfl

/-- C5 witness: a batch in the documented field order produces the
expected tiles via the amended theorem. -/
theorem C5_witness :
    get_tiles [[("x", 4), ("y", 5), ("z", 3)], [("x", 0), ("y", 1), ("z", 1)]] =
      .ok [⟨4, 5, 3⟩, ⟨0, 1, 1⟩] := by
  have := C5_amended
    [[("x", 4), ("y", 5), ("z", 3)], [("x", 0), ("y", 1), ("z", 1)]]
    (by
      intro b hb
      simp only [List.mem_cons, List.not_mem_nil, or_false] at hb
      rcases hb with h | h
      · exact ⟨4, 5, 3, h⟩
      · exact ⟨0, 1, 1, h⟩)
  exact this.trans rfl

/-- Reduction of an `Except` bind on a success value. -/
theorem exceptBind_ok {α β : Type _} (a : α) (f : α → Except PyErr β) :
    (do
      let x ← (.ok a : Except PyErr α)
      f x) = f a := rfl

/-- Reduction of an `Except` bind on an error value. -/
theorem exceptBind_err {α β : Type _} (e : PyErr)
    (f : α → Except PyErr β) :
    (do
      let x ← (.error e : Except PyErr α)
      f x) = .error e := rfl

/-- Reduction of `pyIndex` on an in-range index. -/
theorem pyIndex_pos {α : Type _} (l : List α) (i : Nat) (h : i < l.length) :
    pyIndex l i = .ok (l.get ⟨i, h⟩) := dif_pos h

/-- Reduction of `pyIndex` on an out-of-range index. -/
theorem pyIndex_neg {α : Type _} (l : List α) (i : Nat)
    (h : ¬ i < l.length) :
    pyIndex l i = .error .indexError := dif_neg h

/-- The dict-building loop succeeds whenever the prediction vector is not
longer than the label list beyond the running index, and produces the
Python dict of the zipped labels and scores. -/
theorem clDictGo_ok (inferences : List String) (vec : List ℚ) :
    ∀ (j : Nat) (d : List (String × ℚ)),
      j + vec.length ≤ inferences.length →
      clDictGo inferences vec j d =
        .ok (((inferences.drop j).zip vec).foldl
          (fun d p => dictInsert d p.1 p.2) d) := by
  induction vec with
  | nil => intro j d _; simp [clDictGo]
  | cons v rest ih =>
      intro j d h
      have hj : j < inferences.length := by
        simp only [List.length_cons] at h
        omega
      have hd : inferences.drop j =
          inferences.get ⟨j, hj⟩ :: inferences.drop (j + 1) := by
        rw [List.drop_eq_getElem_cons hj]
        rfl
      have hrec := ih (j + 1) (dictInsert d (inferences.get ⟨j, hj⟩) v)
        (by simp only [List.length_cons] at h; omega)
      have hstep : clDictGo inferences (v :: rest) j d =
          clDictGo inferences rest (j + 1)
            (dictInsert d (inferences.get ⟨j, hj⟩) v) := by
        simp only [clDictGo, pyIndex_pos inferences j hj, exceptBind_ok]
      rw [hstep, hrec, hd, List.zip_cons_cons, List.foldl_cons]

/-- The dict-building loop either succeeds or raises `IndexError`. -/
theorem clDictGo_cases (inferences : List String) (vec : List ℚ) :
    ∀ (j : Nat) (d : List (String × ℚ)),
      (∃ d', clDictGo inferences vec j d = .ok d') ∨
        clDictGo inferences vec j d = .error .indexError := by
  induction vec with
  | nil => intro j d; exact .inl ⟨d, rfl⟩
  | cons v rest ih =>
      intro j d
      by_cases hj : j < inferences.length
      · have hstep : clDictGo inferences (v :: rest) j d =
            clDictGo inferences rest (j + 1)
              (dictInsert d (inferences.get ⟨j, hj⟩) v) := by
          simp only [clDictGo, pyIndex_pos inferences j hj, exceptBind_ok]
        rw [hstep]
        exact ih (j + 1) _
      · right
        simp only [clDictGo, pyIndex_neg inferences j hj, exceptBind_err]

/-- When the prediction list is shorter than the tile list, the
classification loop raises `IndexError`. -/
theorem clGo_short (preds : List (List ℚ)) (inferences : List String)
    (pid : String) (tiles : List Tile) :
    ∀ (i : Nat) (acc : List Record),
      preds.length < i + tiles.length → i ≤ preds.length →
      clGo preds inferences pid tiles i acc = .error .indexError := by
  induction tiles with
  | nil =>
      intro i acc h hle
      simp only [List.length_nil, Nat.add_zero] at h
      omega
  | cons t rest ih =>
      intro i acc h hle
      rcases Nat.lt_or_ge i preds.length with hi | hi
      · have hstep : clGo preds inferences pid (t :: rest) i acc =
            (do
              let d ← clDictGo inferences (preds.get ⟨i, hi⟩) 0 []
              clGo preds inferences pid rest (i + 1)
                (acc ++ [⟨quadkey t.x t.y t.z, none, d, pid⟩])) := by
          simp only [clGo, pyIndex_pos preds i hi, exceptBind_ok]
        rcases clDictGo_cases inferences (preds.get ⟨i, hi⟩) 0 [] with
          ⟨d', hd'⟩ | herr
        · have hrec := ih (i + 1)
            (acc ++ [⟨quadkey t.x t.y t.z, none, d', pid⟩])
            (by simp only [List.length_cons] at h; omega) (by omega)
          rw [hstep, hd', exceptBind_ok, hrec]
        · rw [hstep, herr, exceptBind_err]
      · have hni : ¬ i < preds.length := by omega
        simp only [clGo, pyIndex_neg preds i hni, exceptBind_err]

/-- When every accessed prediction vector exists and fits the label list,
the classification loop succeeds with one record per tile. -/
theorem clGo_ok (preds : List (List ℚ)) (inferences : List String)
    (pid : String) (tiles : List Tile) :
    ∀ (i : Nat) (acc : List Record),
      i + tiles.length ≤ preds.length →
      (∀ v ∈ (preds.drop i).take tiles.length,
        v.length ≤ inferences.length) →
      clGo preds inferences pid tiles i acc =
        .ok (acc ++ clRecordsFrom preds inferences pid tiles i) := by
  induction tiles with
  | nil => intro i acc _ _; simp [clGo, clRecordsFrom]
  | cons t rest ih =>
      intro i acc h hv
      have hi : i < preds.length := by
        simp only [List.length_cons] at h
        omega
      have hdrop : preds.drop i =
          preds.get ⟨i, hi⟩ :: preds.drop (i + 1) := by
        rw [List.drop_eq_getElem_cons hi]
        rfl
      have hvec : (preds.get ⟨i, hi⟩).length ≤ inferences.length := by
        apply hv
        rw [hdrop, List.length_cons, List.take_succ_cons]
        exact List.mem_cons_self _ _
      have hdict := clDictGo_ok inferences (preds.get ⟨i, hi⟩) 0 []
        (by simpa using hvec)
      have hrec := ih (i + 1)
        (acc ++ [⟨quadkey t.x t.y t.z, none,
          dictOfPairs (inferences.zip (preds.get ⟨i, hi⟩)), pid⟩])
        (by simp only [List.length_cons] at h; omega)
        (by
          intro v hv'
          apply hv
          rw [hdrop, List.length_cons, List.take_succ_cons]
          exact List.mem_cons_of_mem _ hv')
      have hgetD : preds.getD i [] = preds.get ⟨i, hi⟩ :=
        List.getD_eq_getElem preds [] hi
      have hstep : clGo preds inferences pid (t :: rest) i acc =
          clGo preds inferences pid rest (i + 1)
            (acc ++ [⟨quadkey t.x t.y t.z, none,
              dictOfPairs (inferences.zip (preds.get ⟨i, hi⟩)), pid⟩]) := by
        simp only [clGo, pyIndex_pos preds i hi, exceptBind_ok]
        rw [hdict, exceptBind_ok, List.drop_zero]
        rfl
      rw [hstep, hrec]
      simp only [clRecordsFrom, hgetD, List.append_assoc,
        List.singleton_append]

/-- The closed-form record list has one record per tile. -/
theorem clRecordsFrom_length (preds : List (List ℚ))
    (inferences : List String) (pid : String) (tiles : List Tile) :
    ∀ i : Nat,
      (clRecordsFrom preds inferences pid tiles i).length = tiles.length := by
  induction tiles with
  | nil => intro i; rfl
  | cons t rest ih => intro i; simp [clRecordsFrom, ih (i + 1)]

/-- Pointwise description of the closed-form record list. -/
theorem clRecordsFrom_get? (preds : List (List ℚ))
    (inferences : List String) (pid : String) (tiles : List Tile) :
    ∀ (i k : Nat),
      (clRecordsFrom preds inferences pid tiles i).get? k =
        (tiles.get? k).map (fun t =>
          ⟨quadkey t.x t.y t.z, none,
           dictOfPairs (inferences.zip (preds.getD (i + k) [])), pid⟩) := by
  induction tiles with
  | nil => intro i k; simp [clRecordsFrom]
  | cons t rest ih =>
      intro i k
      cases k with
      | zero => simp [clRecordsFrom]
      | succ k' =>
          have := ih (i + 1) k'
          simp only [clRecordsFrom, List.get?_cons_succ, this]
          have harith : i + 1 + k' = i + (k' + 1) := by omega
          rw [harith]

/-- No classification record carries geometry. -/
theorem clRecordsFrom_geom (preds : List (List ℚ))
    (inferences : List String) (pid : String) (tiles : List Tile) :
    ∀ i : Nat, ∀ r ∈ clRecordsFrom preds inferences pid tiles i,
      r.quadkey_geom = none := by
  induction tiles with
  | nil => intro i r hr; cases hr
  | cons t rest ih =>
      intro i r hr
      rcases List.mem_cons.mp hr with h | h
      · rw [h]
      · exact ih (i + 1) r h

/-- C4 counterexample: a classification response carrying more prediction
vectors (two) than tiles (one) is a count mismatch, yet
`cl_post_prediction` raises nothing and returns a result document with one
record — contrary to the claim that every mismatch is fatal and returns no
document. -/
theorem C4_counterexample :
    (cl_post_prediction ⟨200, [[1], [2]]⟩ [⟨1, 2, 3⟩] "pid" ["a"]).map
      (fun o => o.predictions.length) = .ok 1 ∧
    [[(1 : ℚ)], [2]].length ≠ [(⟨1, 2, 3⟩ : Tile)].length :=
  ⟨rfl, by decide⟩

/-- C4 amended: the two mismatch directions behave differently.  When the
server returns fewer prediction vectors than tiles, the loop raises
`IndexError` (there is no `PredictionAlignmentError` in the code) and no
document is returned; when it returns more vectors than tiles (and each
consumed vector fits the label list), the extra vectors are silently
ignored and a document with exactly one record per tile is returned. -/
theorem C4_amended (resp : ClResp) (tiles : List Tile) (pid : String)
    (inferences : List String) (hok : statusOk resp.status = true) :
    (resp.predictions.length < tiles.length →
      cl_post_prediction resp tiles pid inferences = .error .indexError) ∧
    (tiles.length < resp.predictions.length →
      (∀ v ∈ resp.predictions.take tiles.length,
        v.length ≤ inferences.length) →
      cl_post_prediction resp tiles pid inferences =
        .ok ⟨pid, clRecordsFrom resp.predictions inferences pid tiles 0⟩ ∧
      (clRecordsFrom resp.predictions inferences pid tiles 0).length =
        tiles.length) := by
  have hcond : ¬ (statusOk resp.status = false) := by simp [hok]
  constructor
  · intro hlt
    have hgo := clGo_short resp.predictions inferences pid tiles 0 []
      (by omega) (by omega)
    simp only [cl_post_prediction, if_neg hcond, hgo, exceptBind_err]
  · intro hgt hv
    have hgo := clGo_ok resp.predictions inferences pid tiles 0 []
      (by omega) (by simpa using hv)
    refine ⟨?_, clRecordsFrom_length _ _ _ _ 0⟩
    simp only [cl_post_prediction, if_neg hcond, hgo, exceptBind_ok,
      List.nil_append]

/-- C4 witness: both branches of the amended theorem at concrete inputs —
an undersupplied response aborts with `IndexError`, an oversupplied one
returns a one-record document. -/
theorem C4_witness :
    cl_post_prediction ⟨200, []⟩ [⟨1, 2, 3⟩] "pid" ["a"] =
      .error .indexError ∧
    cl_post_prediction ⟨200, [[1], [2]]⟩ [⟨1, 2, 3⟩] "pid" ["a"] =
      .ok ⟨"pid", clRecordsFrom [[1], [2]] ["a"] "pid" [⟨1, 2, 3⟩] 0⟩ :=
  ⟨(C4_amended ⟨200, []⟩ [⟨1, 2, 3⟩] "pid" ["a"] rfl).1 (by decide),
   ((C4_amended ⟨200, [[1], [2]]⟩ [⟨1, 2, 3⟩] "pid" ["a"] rfl).2
     (by decide) (by decide)).1⟩

/-- C7 counterexample: a batch whose response is well aligned (one
prediction vector for one tile) but whose vector is longer than the label
list makes `cl_post_prediction` raise `IndexError` instead of returning
one record per tile, so the claim's zip-semantics does not hold as
stated. -/
theorem C7_counterexample :
    cl_post_prediction ⟨200, [[1, 2]]⟩ [⟨4, 5, 3⟩] "pid" ["a"] =
      .error .indexError ∧
    [[(1 : ℚ), 2]].length = [(⟨4, 5, 3⟩ : Tile)].length :=
  ⟨rfl, rfl⟩

/-- C7 amended: for a well-aligned classification response each of whose
vectors is at most as long as the label list, `cl_post_prediction` returns
exactly one record per tile, in order; the i-th record's quadkey is the
quadkey of the i-th tile, its predictions dict is built from the label
list zipped against the i-th prediction vector, and no record carries
geometry. -/
theorem C7_amended (resp : ClResp) (tiles : List Tile) (pid : String)
    (inferences : List String) (hok : statusOk resp.status = true)
    (hlen : resp.predictions.length = tiles.length)
    (hv : ∀ v ∈ resp.predictions, v.length ≤ inferences.length) :
    ∃ out, cl_post_prediction resp tiles pid inferences = .ok out ∧
      out.predictionId = pid ∧
      out.predictions.length = tiles.length ∧
      (∀ i : Nat, (out.predictions.get? i).map Record.quadkey =
        (tiles.get? i).map (fun t => quadkey t.x t.y t.z)) ∧
      (∀ i : Nat, (out.predictions.get? i).map Record.predictions =
        (resp.predictions.get? i).map
          (fun v => dictOfPairs (inferences.zip v))) ∧
      (∀ r ∈ out.predictions, r.quadkey_geom = none) := by
  have hcond : ¬ (statusOk resp.status = false) := by simp [hok]
  have hgo := clGo_ok resp.predictions inferences pid tiles 0 []
    (by omega)
    (by
      intro v hv'
      exact hv v (List.take_subset _ _ (by simpa using hv')))
  refine ⟨⟨pid, clRecordsFrom resp.predictions inferences pid tiles 0⟩,
    ?_, rfl, clRecordsFrom_length _ _ _ _ 0, ?_, ?_, ?_⟩
  · simp only [cl_post_prediction, if_neg hcond, hgo, exceptBind_ok,
      List.nil_append]
  · intro i
    rw [clRecordsFrom_get?]
    rcases Nat.lt_or_ge i tiles.length with hk | hk
    · rw [List.get?_eq_get hk]
      rfl
    · rw [List.get?_eq_none.mpr hk]
      rfl
  · intro i
    rw [clRecordsFrom_get?]
    rcases Nat.lt_or_ge i tiles.length with hk | hk
    · have hk2 : i < resp.predictions.length := by omega
      rw [List.get?_eq_get hk, List.get?_eq_get hk2]
      have h3 : resp.predictions.getD (0 + i) [] =
          resp.predictions.get ⟨i, hk2⟩ := by
        rw [Nat.zero_add]
        exact List.getD_eq_getElem _ _ hk2
      rw [Option.map_some', Option.map_some', h3]
      rfl
    · have hk2 : ¬ i < resp.predictions.length := by omega
      rw [List.get?_eq_none.mpr hk, List.get?_eq_none.mpr (by omega)]
      rfl
  · exact clRecordsFrom_geom _ _ _ _ 0

/-- C7 witness: a concrete aligned batch yields exactly one record via the
amended theorem. -/
theorem C7_witness :
    (cl_post_prediction ⟨200, [[9/10, 1/10]]⟩ [⟨4, 5, 3⟩] "p" ["a", "b"]).map
      (fun out => out.predictions.length) = .ok 1 := by
  obtain ⟨out, hout, _, hlen, _⟩ :=
    C7_amended ⟨200, [[9/10, 1/10]]⟩ [⟨4, 5, 3⟩] "p" ["a", "b"] rfl
      (by decide) (by decide)
  rw [hout]
  show Except.ok out.predictions.length = Except.ok 1
  rw [hlen]
  rfl

/-- C6 counterexample: a metadata response whose serving-default inputs
map does contain an entry named `inputs`, but with a JSON null value,
makes `get_meta` return `CLASSIFICATION` — so containment of the entry
alone does not characterise `ObjectDetection` (`dict.get` yields Python
`None` for a null value just as for an absent key). -/
theorem C6_counterexample :
    get_meta ⟨200, .obj [("metadata", .obj [("signature_def", .obj
      [("signature_def", .obj [("serving_default", .obj
        [("inputs", .obj [("inputs", Json.null)])])])])])]⟩ =
      .ok ModelType.CLASSIFICATION ∧
    [("inputs", Json.null)].map Prod.fst = ["inputs"] :=
  ⟨rfl, rfl⟩

/-- C6 amended: `get_meta` returns `OBJECT_DETECT` exactly when the
serving-default inputs map holds an entry named `inputs` with a non-null
value (and `CLASSIFICATION` otherwise), and it fails without defaulting
when the response status is non-success or the navigation to the
signature fields fails. -/
theorem C6_amended (resp : MetaResp) (fs : List (String × Json))
    (hok : statusOk resp.status = true)
    (hnav : servingInputs resp.body = .ok (.obj fs)) :
    (get_meta resp = .ok ModelType.OBJECT_DETECT ↔
      ((fs.lookup "inputs").getD Json.null).isNull = false) ∧
    (get_meta resp = .ok ModelType.CLASSIFICATION ↔
      ((fs.lookup "inputs").getD Json.null).isNull = true) ∧
    (∀ r : MetaResp, statusOk r.status = false →
      get_meta r = .error .httpError) ∧
    (∀ (r : MetaResp) (e : PyErr), statusOk r.status = true →
      servingInputs r.body = .error e → get_meta r = .error e) := by
  have hcond : ¬ (statusOk resp.status = false) := by simp [hok]
  have hmeta : get_meta resp =
      (if ((fs.lookup "inputs").getD Json.null).isNull = false then
        .ok ModelType.OBJECT_DETECT
      else .ok ModelType.CLASSIFICATION) := by
    simp only [get_meta, if_neg hcond, hnav, exceptBind_ok]
  refine ⟨?_, ?_, ?_, ?_⟩
  · rw [hmeta]
    by_cases hnull : ((fs.lookup "inputs").getD Json.null).isNull = false
    · simp [hnull]
    · have hnull' : ((fs.lookup "inputs").getD Json.null).isNull = true := by
        simpa using hnull
      simp [hnull, hnull']
  · rw [hmeta]
    by_cases hnull : ((fs.lookup "inputs").getD Json.null).isNull = false
    · simp [hnull]
    · have hnull' : ((fs.lookup "inputs").getD Json.null).isNull = true := by
        simpa using hnull
      simp [hnull, hnull']
  · intro r hr
    simp only [get_meta, if_pos hr]
  · intro r e hr1 hr2
    have : ¬ (statusOk r.status = false) := by simp [hr1]
    simp only [get_meta, if_neg this, hr2, exceptBind_err]

/-- C6 witness: a metadata response declaring a (non-null) input named
`inputs` is detected as an object-detection model via the amended
theorem. -/
theorem C6_witness :
    get_meta ⟨200, .obj [("metadata", .obj [("signature_def", .obj
      [("signature_def", .obj [("serving_default", .obj
        [("inputs", .obj [("inputs", Json.str "spec")])])])])])]⟩ =
      .ok ModelType.OBJECT_DETECT :=
  ((C6_amended ⟨200, .obj [("metadata", .obj [("signature_def", .obj
      [("signature_def", .obj [("serving_default", .obj
        [("inputs", .obj [("inputs", Json.str "spec")])])])])])]⟩
    [("inputs", Json.str "spec")] rfl rfl).1).mpr rfl

/-- Every iteration of the box loop either appends exactly one record or
raises. -/
theorem odBoxStep_shape (preds : OdPred) (tile : Tile) (pid : String)
    (bboxes_256 : List (List ℚ)) (acc : List Record) (j : Nat) :
    (∃ r, odBoxStep preds tile pid bboxes_256 acc j = .ok (acc ++ [r])) ∨
    (∃ e, odBoxStep preds tile pid bboxes_256 acc j = .error e) := by
  cases h1 : pyIndex bboxes_256 j with
  | error e1 =>
      right
      exact ⟨e1, by simp only [odBoxStep, h1, exceptBind_err]⟩
  | ok bb =>
      cases h2 : tf_bbox_geo (bb.map (fun c => (c : ℝ))) tile with
      | error e2 =>
          right
          exact ⟨e2, by simp only [odBoxStep, h1, h2, exceptBind_ok,
            exceptBind_err]⟩
      | ok geo =>
          cases h3 : pyIndex preds.detection_scores j with
          | error e3 =>
              right
              exact ⟨e3, by simp only [odBoxStep, h1, h2, h3, exceptBind_ok,
                exceptBind_err]⟩
          | ok score =>
              left
              exact ⟨⟨quadkey tile.x tile.y tile.z, some geo,
                [("default", score)], pid⟩,
                by simp only [odBoxStep, h1, h2, h3, exceptBind_ok]⟩

/-- A fold whose every step appends exactly one element (or raises)
returns, when it succeeds, a list longer than its accumulator by the
number of steps. -/
theorem foldAppendOne_length {σ : Type _}
    (f : List σ → Nat → Except PyErr (List σ))
    (hf : ∀ acc j, (∃ r, f acc j = .ok (acc ++ [r])) ∨
      (∃ e, f acc j = .error e)) :
    ∀ (js : List Nat) (acc out : List σ),
      js.foldlM f acc = .ok out → out.length = acc.length + js.length := by
  intro js
  induction js with
  | nil =>
      intro acc out h
      cases h
      simp
  | cons j rest ih =>
      intro acc out h
      rw [List.foldlM_cons] at h
      rcases hf acc j with ⟨r, hr⟩ | ⟨e, he⟩
      · rw [hr, exceptBind_ok] at h
        have := ih (acc ++ [r]) out h
        simp only [List.length_append, List.length_singleton,
          List.length_cons, List.length_nil] at this ⊢
        omega
      · rw [he, exceptBind_err] at h
        cases h

/-- C8 counterexample: a detection response reporting a negative
`num_detections` of `-1` with two boxes makes the per-tile loop emit one
record (Python's negative slice keeps all but the last box), which is not
`≤ int(num_detections) = -1` — the claimed bound fails for negative
reported counts. -/
theorem C8_counterexample :
    (odTileRecords ⟨-1, [1/2, 1/2], [[0, 0, 1, 1], [0, 0, 1, 1]]⟩ ⟨4, 5, 3⟩
      "p").map List.length = .ok 1 ∧
    ¬ ((1 : Int) ≤ pyInt (-1)) :=
  ⟨rfl, by decide⟩

/-- C8 amended: for every tile whose reported `num_detections` is
non-negative, the per-tile records number at most
`int(num_detections)`; when `num_detections == 0` exactly zero records
are emitted, no error is raised, and the loop moves on to the next tile
with an unchanged accumulator. -/
theorem C8_amended (preds : OdPred) (tile : Tile) (pid : String)
    (hnn : 0 ≤ preds.num_detections) :
    (preds.num_detections = 0 → odTileRecords preds tile pid = .ok []) ∧
    (∀ recs, odTileRecords preds tile pid = .ok recs →
      (recs.length : Int) ≤ pyInt preds.num_detections) ∧
    (∀ (serve : Nat → OdResp) (instances : List ModelInstance)
        (rest : List Tile) (i : Nat) (acc : List Record),
      preds.num_detections = 0 →
      (∃ inst, pyIndex instances i = .ok inst) →
      statusOk (serve i).status = true →
      pyIndex (serve i).predictions 0 = .ok preds →
      odGo serve instances pid (tile :: rest) i acc =
        odGo serve instances pid rest (i + 1) acc) := by
  have hzero : preds.num_detections = 0 →
      odTileRecords preds tile pid = .ok [] := by
    intro h0
    simp only [odTileRecords, if_pos h0]
  refine ⟨hzero, ?_, ?_⟩
  · intro recs hrecs
    by_cases h0 : preds.num_detections = 0
    · have := (hzero h0).symm.trans hrecs
      have hrecs0 : recs = [] := by
        injection this with h'
        exact h'.symm
      rw [hrecs0, h0]
      simp [pyInt]
    · have hn : (0 : Int) ≤ pyInt preds.num_detections :=
        Int.tdiv_nonneg (Rat.num_nonneg.mpr hnn) (by positivity)
      have hfold : (List.range ((pySliceTo preds.detection_boxes
          (pyInt preds.num_detections)).map scale256).length).foldlM
          (odBoxStep preds tile pid ((pySliceTo preds.detection_boxes
            (pyInt preds.num_detections)).map scale256)) [] = .ok recs := by
        have : odTileRecords preds tile pid =
            (List.range ((pySliceTo preds.detection_boxes
              (pyInt preds.num_detections)).map scale256).length).foldlM
              (odBoxStep preds tile pid
                ((pySliceTo preds.detection_boxes
                  (pyInt preds.num_detections)).map scale256)) [] := by
          simp only [odTileRecords, if_neg h0]
        rw [this.symm]
        exact hrecs
      have hlen := foldAppendOne_length _ (odBoxStep_shape preds tile pid _)
        _ _ _ hfold
      simp only [List.length_nil, Nat.zero_add, List.length_range,
        List.length_map] at hlen
      have hsl : (pySliceTo preds.detection_boxes
          (pyInt preds.num_detections)).length ≤
          (pyInt preds.num_detections).toNat := by
        simp only [pySliceTo, if_pos hn, List.length_take]
        exact min_le_left _ _
      rw [hlen]
      calc ((pySliceTo preds.detection_boxes
          (pyInt preds.num_detections)).length : Int)
          ≤ ((pyInt preds.num_detections).toNat : Int) := by
            exact_mod_cast hsl
        _ = pyInt preds.num_detections := Int.toNat_of_nonneg hn
  · intro serve instances rest i acc h0 hex hsok hp0
    obtain ⟨inst, hinst⟩ := hex
    have hcond : ¬ (statusOk (serve i).status = false) := by simp [hsok]
    simp only [odGo, hinst, exceptBind_ok, if_neg hcond, hp0, hzero h0,
      List.append_nil]

/-- C8 witness: a zero-detection response yields no record, raises
nothing, and the loop proceeds to the next tile, via the amended
theorem. -/
theorem C8_witness :
    odTileRecords ⟨0, [], []⟩ ⟨4, 5, 3⟩ "p" = .ok [] ∧
    odGo (fun _ => ⟨200, [⟨0, [], []⟩]⟩) [ModelInstance.inputs "b"] "p"
        [⟨4, 5, 3⟩] 0 [] =
      odGo (fun _ => ⟨200, [⟨0, [], []⟩]⟩) [ModelInstance.inputs "b"] "p"
        [] 1 [] := by
  have h := C8_amended ⟨0, [], []⟩ ⟨4, 5, 3⟩ "p" le_rfl
  exact ⟨h.1 rfl, h.2.2 _ _ _ _ _ rfl ⟨ModelInstance.inputs "b", rfl⟩ rfl rfl⟩

/-- Reduction of `pyIndex` at the head of a list. -/
theorem pyIndex_cons_zero {α : Type _} (a : α) (l : List α) :
    pyIndex (a :: l) 0 = .ok a := by
  rw [pyIndex_pos (a :: l) 0 (by simp)]
  rfl

/-- Reduction of `pyIndex` at a successor index. -/
theorem pyIndex_cons_succ {α : Type _} (a : α) (l : List α) (k : Nat) :
    pyIndex (a :: l) (k + 1) = pyIndex l k := by
  by_cases hk : k < l.length
  · rw [pyIndex_pos l k hk,
      pyIndex_pos (a :: l) (k + 1) (by simp only [List.length_cons]; omega)]
    rfl
  · rw [pyIndex_neg l k hk,
      pyIndex_neg (a :: l) (k + 1) (by simp only [List.length_cons]; omega)]

/-- Reduction of `pyIndex` on the empty list. -/
theorem pyIndex_nil {α : Type _} (k : Nat) :
    pyIndex ([] : List α) k = .error .indexError :=
  pyIndex_neg [] k (by simp)

/-- Reduction of `Except.map` on a success value. -/
theorem exceptMap_ok {α β : Type _} (a : α) (f : α → β) :
    Except.map f (.ok a : Except PyErr α) = .ok (f a) := rfl

/-- Reduction of `Except.map` on an error value. -/
theorem exceptMap_err {α β : Type _} (e : PyErr) (f : α → β) :
    Except.map f (.error e : Except PyErr α) = .error e := rfl

/-- C9: for every normalized box `[ymin, xmin, ymax, xmax]` with
coordinates in `[0, 1]`, the pixel rectangle handed to the geographic
transform is `[256 * xmin, 256 * ymin, 256 * xmax, 256 * ymax]`, and the
code's composition (scale by 256 in `od_post_prediction`, then reorder in
`tf_bbox_geo`) agrees with the spec's composition (reorder, then scale)
on every box whatsoever. -/
theorem C9_scale_reorder_commute (y0 x0 y1 x1 : ℚ)
    (h0 : 0 ≤ y0 ∧ y0 ≤ 1) (h1 : 0 ≤ x0 ∧ x0 ≤ 1)
    (h2 : 0 ≤ y1 ∧ y1 ≤ 1) (h3 : 0 ≤ x1 ∧ x1 ≤ 1) :
    tfPred (scale256 [y0, x0, y1, x1]) =
      .ok [256 * x0, 256 * y0, 256 * x1, 256 * y1] ∧
    ∀ bbox : List ℚ,
      tfPred (scale256 bbox) = (tfPred bbox).map scale256 := by
  constructor
  · have hred : tfPred (scale256 [y0, x0, y1, x1]) =
        Except.ok [x0 * 256, y0 * 256, x1 * 256, y1 * 256] := rfl
    rw [hred]
    simp [mul_comm]
  · intro bbox
    rcases bbox with _ | ⟨a, _ | ⟨b, _ | ⟨c, _ | ⟨d, rest⟩⟩⟩⟩ <;>
      simp only [scale256, List.map_cons, List.map_nil, tfPred,
        pyIndex_cons_zero, pyIndex_cons_succ, pyIndex_nil, exceptBind_ok,
        exceptBind_err, exceptMap_ok, exceptMap_err]

/-- C9 witness: the reorder-and-scale identity at the spec's example box
`[0.25, 0.25, 0.75, 0.75]`. -/
theorem C9_witness :
    tfPred (scale256 [1/4, 1/4, 3/4, 3/4]) =
      .ok [256 * (1/4), 256 * (1/4), 256 * (3/4), 256 * (3/4)] :=
  (C9_scale_reorder_commute (1/4) (1/4) (3/4) (3/4)
    (by norm_num) (by norm_num) (by norm_num) (by norm_num)).1

/-- The west bound of a tile is strictly below its east bound. -/
theorem ulLon_lt (x z : Int) : ulLon x z < ulLon (x + 1) z := by
  unfold ulLon
  have hp : (0 : ℝ) < (2 : ℝ) ^ z := zpow_pos (by norm_num) z
  have hx : (x : ℝ) / (2 : ℝ) ^ z < ((x : ℝ) + 1) / (2 : ℝ) ^ z := by
    apply div_lt_div_of_pos_right _ hp
    linarith
  push_cast
  nlinarith [hx]

/-- The latitude of the upper-left corner strictly decreases with the
tile row. -/
theorem ulLat_lt (y z : Int) : ulLat (y + 1) z < ulLat y z := by
  unfold ulLat
  have hp : (0 : ℝ) < (2 : ℝ) ^ z := zpow_pos (by norm_num) z
  have hpi : (0 : ℝ) < Real.pi := Real.pi_pos
  have harg : Real.pi * (1 - 2 * ((y : ℝ) + 1) / (2 : ℝ) ^ z) <
      Real.pi * (1 - 2 * (y : ℝ) / (2 : ℝ) ^ z) := by
    apply mul_lt_mul_of_pos_left _ hpi
    have h2 : 2 * (y : ℝ) / (2 : ℝ) ^ z < 2 * ((y : ℝ) + 1) / (2 : ℝ) ^ z := by
      apply div_lt_div_of_pos_right _ hp
      linarith
    linarith
  have harc := Real.arctan_strictMono (Real.sinh_lt_sinh.mpr harg)
  have h180 : Real.arctan (Real.sinh
        (Real.pi * (1 - 2 * ((y : ℝ) + 1) / (2 : ℝ) ^ z))) * 180 <
      Real.arctan (Real.sinh
        (Real.pi * (1 - 2 * (y : ℝ) / (2 : ℝ) ^ z))) * 180 := by
    nlinarith [harc]
  have := div_lt_div_of_pos_right h180 hpi
  push_cast
  convert this using 3 <;> ring

/-- C10: for every tile `(x, y, z)` with `0 ≤ x, y < 2^z`, applying the
per-tile affine transform of `tf_bbox_geo` to the full-tile pixel
rectangle `(0, 0, 256, 256)` yields a polygon whose bounding box is
exactly the tile's published geographic bounds
`(west, south, east, north)`. -/
theorem C10_full_rect_bounds (x y z : Int) (hz : 0 ≤ z)
    (hx : 0 ≤ x ∧ x < 2 ^ z.toNat) (hy : 0 ≤ y ∧ y < 2 ^ z.toNat) :
    ∃ g, tf_bbox_geo [0, 0, 256, 256] ⟨x, y, z⟩ = .ok g ∧
      polyBounds g =
        ((tileBounds ⟨x, y, z⟩).west, (tileBounds ⟨x, y, z⟩).south,
         (tileBounds ⟨x, y, z⟩).east, (tileBounds ⟨x, y, z⟩).north) := by
  have hwe : (tileBounds ⟨x, y, z⟩).west < (tileBounds ⟨x, y, z⟩).east :=
    ulLon_lt x z
  have hsn : (tileBounds ⟨x, y, z⟩).south < (tileBounds ⟨x, y, z⟩).north :=
    ulLat_lt y z
  have hpts : affineTransformPts
      (((tileBounds ⟨x, y, z⟩).east - (tileBounds ⟨x, y, z⟩).west) / 256) 0 0
      (0 - ((tileBounds ⟨x, y, z⟩).north - (tileBounds ⟨x, y, z⟩).south) / 256)
      (tileBounds ⟨x, y, z⟩).west (tileBounds ⟨x, y, z⟩).north
      (shapelyBox 0 0 256 256) =
      [((tileBounds ⟨x, y, z⟩).east, (tileBounds ⟨x, y, z⟩).north),
       ((tileBounds ⟨x, y, z⟩).east, (tileBounds ⟨x, y, z⟩).south),
       ((tileBounds ⟨x, y, z⟩).west, (tileBounds ⟨x, y, z⟩).south),
       ((tileBounds ⟨x, y, z⟩).west, (tileBounds ⟨x, y, z⟩).north),
       ((tileBounds ⟨x, y, z⟩).east, (tileBounds ⟨x, y, z⟩).north)] := by
    simp only [affineTransformPts, shapelyBox, List.map_cons, List.map_nil,
      List.cons.injEq, Prod.mk.injEq, and_true]
    refine ⟨⟨by ring, by ring⟩, ⟨by ring, by ring⟩, ⟨by ring, by ring⟩,
      ⟨by ring, by ring⟩, by ring, by ring⟩
  have hg : tf_bbox_geo [0, 0, 256, 256] (⟨x, y, z⟩ : Tile) =
      .ok (affineTransformPts
        (((tileBounds ⟨x, y, z⟩).east - (tileBounds ⟨x, y, z⟩).west) / 256) 0 0
        (0 - ((tileBounds ⟨x, y, z⟩).north -
          (tileBounds ⟨x, y, z⟩).south) / 256)
        (tileBounds ⟨x, y, z⟩).west (tileBounds ⟨x, y, z⟩).north
        (shapelyBox 0 0 256 256)) := rfl
  rw [hpts] at hg
  refine ⟨_, hg, ?_⟩
  simp only [polyBounds, List.foldl_cons, List.foldl_nil]
  simp [min_self, max_self, min_eq_right hwe.le, min_eq_left hwe.le,
    max_eq_left hwe.le, max_eq_right hwe.le, min_eq_right hsn.le,
    min_eq_left hsn.le, max_eq_left hsn.le, max_eq_right hsn.le]

/-- C10 witness: the round trip at the spec's example tile `(4, 5, 3)`. -/
theorem C10_witness :
    ∃ g, tf_bbox_geo [0, 0, 256, 256] ⟨4, 5, 3⟩ = .ok g ∧
      polyBounds g =
        ((tileBounds ⟨4, 5, 3⟩).west, (tileBounds ⟨4, 5, 3⟩).south,
         (tileBounds ⟨4, 5, 3⟩).east, (tileBounds ⟨4, 5, 3⟩).north) :=
  C10_full_rect_bounds 4 5 3 (by decide) (by decide) (by decide)

end DAP
